import Mathlib

/-!
Verification of the transform and interaction engine of `StickerBoard_ver2.py`
(class `StickerWindow`).  The Python source computes with IEEE-754 doubles;
every float value is a rational number, so the model uses exact rational
arithmetic (`ℚ`):

* `rhe` is Python's builtin `round` (round half to even), used by the source
  as `int(round(x))`;
* `qtrunc` is truncation toward zero: Python's `int(...)` applied to a float
  and C++ integer division as used by Qt's `QRect.center()`;
* `ceilSqrt` is the exact integer value of `math.ceil(math.sqrt(n))` for a
  nonnegative integer `n`: a correctly rounded double square root differs
  from the exact root by less than `1/(2*sqrt(n))` in the sizes that occur
  here (`n < 2^52`), so its ceiling is the exact integer ceiling;
* the cosine/sine pair of the fixed rotation angle is carried as a pair of
  rationals `(ca, sa)` (the actual double values are rationals); claims about
  the pure trigonometric mapping are stated over `ℝ` with `Real.cos/sin`.

Geometry conventions from the source: sticker windows are frameless
top-level widgets, so `frameGeometry()` equals `geometry()`, `mapToGlobal(p)`
is the window position plus `p`, and the window rect is always a square of
side `_max_square_side(base_w, base_h)`.
-/

namespace Sticker

/-- Round half to even on rationals: Python's builtin `round`. -/
def rhe (q : ℚ) : ℤ :=
  if Int.fract q < 1/2 then ⌊q⌋
  else if 1/2 < Int.fract q then ⌊q⌋ + 1
  else if ⌊q⌋ % 2 = 0 then ⌊q⌋ else ⌊q⌋ + 1

/-- Truncation toward zero: Python's `int(...)` on a float, and C++ integer
division used inside Qt. -/
def qtrunc (q : ℚ) : ℤ := if 0 ≤ q then ⌊q⌋ else ⌈q⌉

/-- Exact integer ceiling square root, the value of `math.ceil(math.sqrt(n))`. -/
def ceilSqrt (n : ℕ) : ℕ :=
  if Nat.sqrt n * Nat.sqrt n = n then Nat.sqrt n else Nat.sqrt n + 1

/-- `StickerWindow._max_square_side`: `int(math.ceil(math.sqrt(w*w+h*h))) + 2`. -/
def max_square_side (w h : ℤ) : ℤ := (ceilSqrt (w * w + h * h).toNat : ℤ) + 2

/-- Coordinate of `QRect(0, 0, side, side).center()`: Qt computes
`(0 + (side - 1)) / 2` with C++ (truncating) integer division.  Used for
`self.rect().center()` on the square sticker window. -/
def rect_center (side : ℤ) : ℤ := qtrunc (((side : ℚ) - 1) / 2)

/-- Coordinate of `QRect(x, _, extent, _).center()` along one axis: Qt
computes `(x1 + x2) / 2` with `x2 = x + extent - 1`, C++ integer division. -/
def qt_center (x extent : ℤ) : ℤ := qtrunc (((x : ℚ) + ((x : ℚ) + (extent : ℚ) - 1)) / 2)

/-- Per-gesture constants of a resize interaction, captured by
`mousePressEvent`: `(ca, sa)` are the cosine/sine of `radians(rotation_angle)`
(the angle is fixed during a resize), `(ax, ay)` is `_resize_anchor_pt`, and
`(w0, h0)` are `_start_base_w/_start_base_h`. -/
structure ResizeParams where
  ca : ℚ
  sa : ℚ
  ax : ℤ
  ay : ℤ
  w0 : ℤ
  h0 : ℤ

/-- Mutable widget state during a resize gesture: the applied window geometry
(`self.geometry()`, always a square of side `gside`), the pending preview size
`_resizing_pending_size`, and the EMA state `_scale_ema`. -/
structure ResizeState where
  gx : ℤ
  gy : ℤ
  gside : ℤ
  pw : ℤ
  ph : ℤ
  ema : ℚ

/-- Rotation of the image corner vector `(-w/2, -h/2)` by the gesture's fixed
angle: the `(rx, ry)` computed identically in `_center_from_anchor` and in
`_map_image_center_to_widget` at the argument `(-w/2, -h/2)`
(`rx = vx*ca - vy*sa`, `ry = vx*sa + vy*ca` with `a = radians(angle)`). -/
def rot_offset (ca sa : ℚ) (w h : ℤ) : ℚ × ℚ :=
  ((-(w : ℚ) / 2) * ca - (-(h : ℚ) / 2) * sa,
   (-(w : ℚ) / 2) * sa + (-(h : ℚ) / 2) * ca)

/-- `StickerWindow._center_from_anchor`: `QPoint(int(round(ax - rx)), int(round(ay - ry)))`. -/
def center_from_anchor (ca sa : ℚ) (ax ay w h : ℤ) : ℤ × ℤ :=
  let r := rot_offset ca sa w h
  (rhe ((ax : ℚ) - r.1), rhe ((ay : ℚ) - r.2))

/-- `StickerWindow._image_top_left_global` recomputed from a window geometry
`(gx, gy, gside)` and an image size `(w, h)`:
`_map_image_center_to_widget(-w/2, -h/2)` is `round(rect().center() + r)` and
`mapToGlobal` adds the window position. -/
def image_top_left (ca sa : ℚ) (gx gy gside w h : ℤ) : ℤ × ℤ :=
  let r := rot_offset ca sa w h
  (gx + rhe ((rect_center gside : ℚ) + r.1),
   gy + rhe ((rect_center gside : ℚ) + r.2))

/-- The resize-anchor observable: the screen position of the image's top-left
corner recomputed from the currently applied window geometry and the current
pending size. -/
def image_top_left_global (P : ResizeParams) (st : ResizeState) : ℤ × ℤ :=
  image_top_left P.ca P.sa st.gx st.gy st.gside st.pw st.ph

/-- Raw projection scale of one resize pointer-move (`mouseMoveEvent`,
resizing branch): the pointer position `(px, py)` in widget-local coordinates
is mapped to image space by the inverse rotation (`a = -radians(angle)`, so
`cos a = ca` and `sin a = -sa`), projected on the start-size half-diagonal,
and clamped below at `0.1`.  The source guards a nonpositive denominator by
replacing it with `1`. -/
def raw_scale (P : ResizeParams) (st : ResizeState) (px py : ℤ) : ℚ :=
  let wc : ℤ := rect_center st.gside
  let vxw : ℚ := ((px - wc : ℤ) : ℚ)
  let vyw : ℚ := ((py - wc : ℤ) : ℚ)
  let vxi : ℚ := vxw * P.ca + vyw * P.sa
  let vyi : ℚ := -vxw * P.sa + vyw * P.ca
  let w0 : ℤ := max 1 P.w0
  let h0 : ℤ := max 1 P.h0
  let bx : ℚ := (w0 : ℚ) / 2
  let bh : ℚ := (h0 : ℚ) / 2
  let denom : ℚ := bx * bx + bh * bh
  let denom : ℚ := if denom ≤ 0 then 1 else denom
  max (1/10) ((vxi * bx + vyi * bh) / denom)

/-- EMA update of `_scale_ema` on one resize pointer-move:
`alpha = 0.4`, `ema = (1 - alpha) * ema + alpha * s_raw`. -/
def ema_next (P : ResizeParams) (st : ResizeState) (px py : ℤ) : ℚ :=
  (1 - 2/5) * st.ema + 2/5 * raw_scale P st px py

/-- Tentative pending size for a smoothed scale `s`:
`tmp = round(w0*s), round(h0*s)`; if the shorter side is below `MIN_SIDE = 64`
both are up-scaled by `64 / max(1, short)`; finally both are clamped to at
least 1. -/
def tentative_size (w0 h0 : ℤ) (s : ℚ) : ℤ × ℤ :=
  let tw : ℤ := rhe ((w0 : ℚ) * s)
  let th : ℤ := rhe ((h0 : ℚ) * s)
  if min tw th < 64 then
    (max 1 (rhe ((tw : ℚ) * ((64 : ℚ) / ((max 1 (min tw th) : ℤ) : ℚ)))),
     max 1 (rhe ((th : ℚ) * ((64 : ℚ) / ((max 1 (min tw th) : ℤ) : ℚ)))))
  else (max 1 tw, max 1 th)

/-- Pending size produced by one resize pointer-move (the source clamps the
start size with `max(1, ...)` before using it). -/
def pending_after (P : ResizeParams) (st : ResizeState) (px py : ℤ) : ℤ × ℤ :=
  tentative_size (max 1 P.w0) (max 1 P.h0) (ema_next P st px py)

/-- Candidate window geometry `(new_x, new_y, required_side)` computed by the
resizing branch of `mouseMoveEvent` for the new pending size. -/
def cand_after (P : ResizeParams) (st : ResizeState) (px py : ℤ) : ℤ × ℤ × ℤ :=
  let p := pending_after P st px py
  let side := max_square_side p.1 p.2
  let c := center_from_anchor P.ca P.sa P.ax P.ay p.1 p.2
  (rhe ((c.1 : ℚ) - (side : ℚ) / 2), rhe ((c.2 : ℚ) - (side : ℚ) / 2), side)

/-- Debounce test of the resizing branch: geometry is re-applied only if it
differs from the current geometry by at least 2 in some dimension (the source
tests width and height separately against the same `required_side`). -/
def need_apply (st : ResizeState) (g : ℤ × ℤ × ℤ) : Bool :=
  decide (2 ≤ |st.gx - g.1|) || decide (2 ≤ |st.gy - g.2.1|) ||
  decide (2 ≤ |st.gside - g.2.2|) || decide (2 ≤ |st.gside - g.2.2|)

/-- One resize pointer-move (`mouseMoveEvent`, resizing branch): updates the
EMA and the pending size, and applies the candidate geometry only if the
2-pixel debounce test passes. -/
def resize_move (P : ResizeParams) (st : ResizeState) (px py : ℤ) : ResizeState :=
  if need_apply st (cand_after P st px py) then
    { gx := (cand_after P st px py).1, gy := (cand_after P st px py).2.1,
      gside := (cand_after P st px py).2.2,
      pw := (pending_after P st px py).1, ph := (pending_after P st px py).2,
      ema := ema_next P st px py }
  else
    { st with
      pw := (pending_after P st px py).1
      ph := (pending_after P st px py).2
      ema := ema_next P st px py }

/-- Resize branch of `mousePressEvent`: captures the anchor from the current
geometry and size, sets the pending size to the current size and resets the
EMA to 1. -/
def press_resize (gx gy gside : ℤ) (ca sa : ℚ) (bw bh : ℤ) :
    ResizeParams × ResizeState :=
  let tl := image_top_left ca sa gx gy gside bw bh
  (⟨ca, sa, tl.1, tl.2, bw, bh⟩, ⟨gx, gy, gside, bw, bh, 1⟩)

/-- A whole resize gesture: press on the handle, a sequence of pointer moves,
then release; `_finalize_pending_resize` commits the pending size into
`base_w/base_h`, which this function returns. -/
def resize_gesture (gx gy gside : ℤ) (ca sa : ℚ) (bw bh : ℤ)
    (moves : List (ℤ × ℤ)) : ℤ × ℤ :=
  let pr := press_resize gx gy gside ca sa bw bh
  let fin := moves.foldl (fun st m => resize_move pr.1 st m.1 m.2) pr.2
  (fin.pw, fin.ph)

/-- Persisted sticker record (`to_state` dictionary / `apply_state` input);
absent keys are `none`. -/
structure StickerRec where
  path : Option String
  x : Option ℤ
  y : Option ℤ
  cx : Option ℤ
  cy : Option ℤ
  w : Option ℤ
  h : Option ℤ
  angle : Option ℚ
  topmost : Option Bool
  locked : Option Bool

/-- Widget state relevant to serialization: `image_path` (set once by
`__init__` from its argument), `loaded_path` records the path last passed to
`load_pixmap_fixed`, the base size, rotation, flags, the window geometry
(a square of side `gside` at `(gx, gy)`), the aspect ratio and
`_saved_center`. -/
structure WidgetState where
  image_path : String
  loaded_path : String
  base_w : ℤ
  base_h : ℤ
  rotation_angle : ℚ
  locked : Bool
  topmost : Bool
  gx : ℤ
  gy : ℤ
  gside : ℤ
  aspect_ratio : ℚ
  saved_center : Option (ℤ × ℤ)

/-- `StickerWindow.__init__`, restricted to the modeled fields: stores the
constructor path and immediately loads the pixmap from that same path. -/
def mk_widget (path : String) (bw bh : ℤ) (ang : ℚ) (gx gy : ℤ) : WidgetState :=
  { image_path := path, loaded_path := path, base_w := bw, base_h := bh,
    rotation_angle := ang, locked := false, topmost := true,
    gx := gx, gy := gy, gside := max_square_side bw bh,
    aspect_ratio := if 0 < bh then (bw : ℚ) / (bh : ℚ) else 1,
    saved_center := none }

/-- `StickerWindow.to_state`: emits the legacy top-left `(x, y)`, the frame
center `(cx, cy)` (frameless window, so `frameGeometry()` is `geometry()`),
the base size, flags and angle. -/
def to_state (s : WidgetState) : StickerRec :=
  { path := some s.image_path,
    x := some s.gx, y := some s.gy,
    cx := some (qt_center s.gx s.gside), cy := some (qt_center s.gy s.gside),
    w := some s.base_w, h := some s.base_h,
    angle := some s.rotation_angle,
    topmost := some s.topmost, locked := some s.locked }

/-- `StickerWindow.apply_state`: clamps the restored size at 32 per axis,
reloads the pixmap from `self.image_path`, prefers `cx/cy` when both are
present and otherwise derives the center from the legacy `x, y` plus
`required_side // 2`, then applies the square geometry
`(int(cx - side/2), int(cy - side/2), side, side)` and stores
`_saved_center`. -/
def apply_state (s : WidgetState) (st : StickerRec) : WidgetState :=
  let bw : ℤ := max 32 (st.w.getD s.base_w)
  let bh : ℤ := max 32 (st.h.getD s.base_h)
  let aspect : ℚ := if 0 < bh then (bw : ℚ) / (bh : ℚ) else s.aspect_ratio
  let ang : ℚ := st.angle.getD 0
  let tm : Bool := st.topmost.getD true
  let lk : Bool := st.locked.getD false
  let side : ℤ := max_square_side bw bh
  let c : ℤ × ℤ :=
    match st.cx, st.cy with
    | some cx, some cy => (cx, cy)
    | _, _ => (st.x.getD s.gx + side / 2, st.y.getD s.gy + side / 2)
  { image_path := s.image_path,
    loaded_path := s.image_path,
    base_w := bw, base_h := bh,
    rotation_angle := ang,
    locked := lk, topmost := tm,
    gx := qtrunc ((c.1 : ℚ) - (side : ℚ) / 2),
    gy := qtrunc ((c.2 : ℚ) - (side : ℚ) / 2),
    gside := side,
    aspect_ratio := aspect,
    saved_center := some c }

/-- Barycentric denominator of `_pt_in_triangle`:
`(y2 - y3)*(x1 - x3) + (x3 - x2)*(y1 - y3)` (exact: `QPoint` coordinates are
integers). -/
def bary_denom (a b2 c : ℤ × ℤ) : ℤ :=
  (b2.2 - c.2) * (a.1 - c.1) + (c.1 - b2.1) * (a.2 - c.2)

/-- First barycentric coordinate computed by `_pt_in_triangle` (Python 3 `/`
is true division; the sign of the correctly rounded float quotient equals the
sign of the exact quotient at these magnitudes). -/
def bary_u (p a b2 c : ℤ × ℤ) : ℚ :=
  (((b2.2 - c.2) * (p.1 - c.1) + (c.1 - b2.1) * (p.2 - c.2) : ℤ) : ℚ) /
    ((bary_denom a b2 c : ℤ) : ℚ)

/-- Second barycentric coordinate computed by `_pt_in_triangle`. -/
def bary_v (p a b2 c : ℤ × ℤ) : ℚ :=
  (((c.2 - a.2) * (p.1 - c.1) + (a.1 - c.1) * (p.2 - c.2) : ℤ) : ℚ) /
    ((bary_denom a b2 c : ℤ) : ℚ)

/-- `StickerWindow._pt_in_triangle`: returns `False` on a zero denominator,
otherwise tests `u >= 0 and v >= 0 and w >= 0` with `w = 1 - u - v`. -/
def pt_in_triangle (p a b2 c : ℤ × ℤ) : Bool :=
  if bary_denom a b2 c = 0 then false
  else
    let u := bary_u p a b2 c
    let v := bary_v p a b2 c
    let w := 1 - u - v
    decide (0 ≤ u ∧ 0 ≤ v ∧ 0 ≤ w)

/-- `StickerWindow._hit_test_resize`: inactive when locked, when the triangle
is not yet computed, or when the hover flag `_show_resize_handle` is false. -/
def hit_test_resize (locked show_handle : Bool)
    (tri : Option ((ℤ × ℤ) × (ℤ × ℤ) × (ℤ × ℤ))) (pos : ℤ × ℤ) : Bool :=
  if locked || tri.isNone || !show_handle then false
  else
    match tri with
    | some t => pt_in_triangle pos t.1 t.2.1 t.2.2
    | none => false

/-- Widget state consulted by the press handlers: the lock flag, the three
interaction-mode flags, the hover flag and the handle triangle. -/
structure PressState where
  locked : Bool
  dragging : Bool
  resizing : Bool
  rotating : Bool
  show_handle : Bool
  tri : Option ((ℤ × ℤ) × (ℤ × ℤ) × (ℤ × ℤ))

/-- Left-button branch of `mousePressEvent`: a no-op while locked, otherwise
enters Resizing when the handle hit test passes and Dragging otherwise. -/
def mouse_press_left (s : PressState) (pos : ℤ × ℤ) : PressState :=
  if s.locked then s
  else if hit_test_resize s.locked s.show_handle s.tri pos then
    { s with resizing := true }
  else
    { s with dragging := true }

/-- Right-button branch of `mousePressEvent`: only pops up the context menu,
the interaction state is untouched. -/
def mouse_press_right (s : PressState) : PressState := s

/-- `StickerWindow._begin_rotate_by_button` (pressing the rotate control):
a no-op while locked, otherwise enters Rotating. -/
def begin_rotate_by_button (s : PressState) : PressState :=
  if s.locked then s else { s with rotating := true }

/-- Forward mapping of `_map_image_center_to_widget` before the final
`QPoint` rounding, over the reals: rotate the image-space vector by
`radians(angle)` and translate by the widget-rect center. -/
noncomputable def image_to_widget_real (angle cx cy vx vy : ℝ) : ℝ × ℝ :=
  let a := angle * Real.pi / 180
  (cx + (vx * Real.cos a - vy * Real.sin a),
   cy + (vx * Real.sin a + vy * Real.cos a))

/-- Inverse mapping of `_is_pos_in_image` over the reals: subtract the
widget-rect center and rotate by `a = -radians(angle)`. -/
noncomputable def widget_to_image_real (angle cx cy px py : ℝ) : ℝ × ℝ :=
  let a := -(angle * Real.pi / 180)
  let vxw := px - cx
  let vyw := py - cy
  (vxw * Real.cos a - vyw * Real.sin a, vxw * Real.sin a + vyw * Real.cos a)

/-- Concrete resize gesture used in examples: a 100×100 sticker (window side
144) at the origin, rotation angle 0 (`ca = 1`, `sa = 0`); the captured
anchor is `(21, 21)`. -/
def exP : ResizeParams := ⟨1, 0, 21, 21, 100, 100⟩

/-- Initial resize-session state for the concrete gesture of `exP`. -/
def exSt0 : ResizeState := ⟨0, 0, 144, 100, 100, 1⟩

/-- Resize-session state after the first move of the concrete gesture. -/
def exSt1 : ResizeState := ⟨-6, -6, 171, 119, 119, 297/250⟩

/-- Resize-session state after the second move of the concrete gesture. -/
def exSt2 : ResizeState := ⟨-6, -6, 171, 120, 120, 1501/1250⟩

/-- Scenario B legacy record `{x:100, y:100, w:200, h:100}` (no `cx`/`cy`). -/
def legacy_rec_B : StickerRec :=
  ⟨none, some 100, some 100, none, none, some 200, some 100, none, none, none⟩

/-- A record carrying an explicit center `cx/cy`. -/
def rec_c : StickerRec :=
  ⟨none, some 1, some 2, some 77, some 88, some 50, some 40, some 0, some true, some false⟩

/-- A concrete widget used in witnesses. -/
def wdg0 : WidgetState := mk_widget "sticker.png" 100 100 0 0 0

/-- A concrete locked press state whose handle triangle contains the probed
point, used in witnesses. -/
def ps0 : PressState := ⟨true, false, false, false, true, some ((0, 0), (40, 0), (0, 40))⟩

/-- Round half to even never rounds up by more than one half. -/
theorem rhe_le (q : ℚ) : (rhe q : ℚ) ≤ q + 1/2 := by
  have h0 := Int.fract_nonneg q
  have h1 := Int.fract_lt_one q
  have hf : (⌊q⌋ : ℚ) = q - Int.fract q := by unfold Int.fract; ring
  unfold rhe
  split_ifs <;> push_cast <;> linarith

/-- Round half to even never rounds down by more than one half. -/
theorem le_rhe (q : ℚ) : q - 1/2 ≤ (rhe q : ℚ) := by
  have h0 := Int.fract_nonneg q
  have h1 := Int.fract_lt_one q
  have hf : (⌊q⌋ : ℚ) = q - Int.fract q := by unfold Int.fract; ring
  unfold rhe
  split_ifs <;> push_cast <;> linarith

/-- Round half to even restricted to integers is the identity. -/
theorem rhe_intCast (n : ℤ) : rhe (n : ℚ) = n := by
  unfold rhe
  rw [Int.fract_intCast, Int.floor_intCast]
  norm_num

/-- Round half to even of an exact half-integer is one of its two neighbours. -/
theorem rhe_int_add_half (n : ℤ) :
    rhe ((n : ℚ) + 1/2) = n ∨ rhe ((n : ℚ) + 1/2) = n + 1 := by
  have hfr : Int.fract ((n : ℚ) + 1/2) = 1/2 := by
    rw [Int.fract_int_add, Int.fract_eq_self.mpr (by norm_num)]
  have hfl : ⌊(n : ℚ) + 1/2⌋ = n := by
    rw [Int.floor_int_add, show ⌊(1/2 : ℚ)⌋ = 0 from by norm_num, add_zero]
  unfold rhe
  rw [hfr, hfl, if_neg (by norm_num), if_neg (by norm_num)]
  by_cases h : n % 2 = 0 <;> simp [h]

/-- An integer below a rational is below its round-half-even. -/
theorem int_le_rhe (n : ℤ) (q : ℚ) (h : (n : ℚ) ≤ q) : n ≤ rhe q := by
  have h1 := le_rhe q
  have h2 : ((n : ℤ) : ℚ) - 1 < (rhe q : ℚ) := by linarith
  have : (n : ℤ) - 1 < rhe q := by exact_mod_cast h2
  omega

/-- Truncation restricted to integers is the identity. -/
theorem qtrunc_intCast (n : ℤ) : qtrunc (n : ℚ) = n := by
  unfold qtrunc
  split_ifs <;> simp

/-- Truncation toward zero of an exact half-integer. -/
theorem qtrunc_int_add_half (n : ℤ) :
    qtrunc ((n : ℚ) + 1/2) = if 0 ≤ n then n else n + 1 := by
  unfold qtrunc
  by_cases h : 0 ≤ n
  · have hq : (0 : ℚ) ≤ (n : ℚ) + 1/2 := by
      have : (0 : ℚ) ≤ (n : ℚ) := by exact_mod_cast h
      linarith
    rw [if_pos hq, if_pos h, Int.floor_int_add,
      show ⌊(1/2 : ℚ)⌋ = 0 from by norm_num, add_zero]
  · have hn : n + 1 ≤ 0 := by omega
    have hq : ¬ (0 : ℚ) ≤ (n : ℚ) + 1/2 := by
      have : ((n + 1 : ℤ) : ℚ) ≤ 0 := by exact_mod_cast hn
      push_cast at this
      linarith
    rw [if_neg hq, if_neg h]
    rw [Int.ceil_eq_iff]
    constructor
    · push_cast; linarith
    · push_cast; linarith

/-- Qt's local rect center for an even window side. -/
theorem rect_center_even (k : ℤ) (hk : 1 ≤ k) : rect_center (2 * k) = k - 1 := by
  unfold rect_center
  rw [show (((2 * k : ℤ) : ℚ) - 1) / 2 = ((k - 1 : ℤ) : ℚ) + 1/2 from by push_cast; ring,
    qtrunc_int_add_half]
  rw [if_pos (by omega)]

/-- Qt's local rect center for an odd window side. -/
theorem rect_center_odd (k : ℤ) : rect_center (2 * k + 1) = k := by
  unfold rect_center
  rw [show (((2 * k + 1 : ℤ) : ℚ) - 1) / 2 = ((k : ℤ) : ℚ) from by push_cast; ring,
    qtrunc_intCast]

/-- Characterization of the rect center of a positive side. -/
theorem rect_center_char (s : ℤ) (hs : 1 ≤ s) :
    2 * rect_center s = s - 1 ∨ 2 * rect_center s = s - 2 := by
  rcases Int.even_or_odd s with ⟨k, hk⟩ | ⟨k, hk⟩
  · have hk1 : 1 ≤ k := by omega
    rw [hk, show k + k = 2 * k from by ring, rect_center_even k hk1]
    omega
  · rw [hk, rect_center_odd k]
    omega

/-- Sides within one of each other have rect centers within one of each other. -/
theorem rect_center_diff (a s : ℤ) (ha : 1 ≤ a) (hs : 1 ≤ s)
    (h1 : -1 ≤ a - s) (h2 : a - s ≤ 1) :
    -1 ≤ rect_center a - rect_center s ∧ rect_center a - rect_center s ≤ 1 := by
  rcases rect_center_char a ha with h3 | h3 <;> rcases rect_center_char s hs with h4 | h4 <;>
    constructor <;> omega

/-- The enclosing square side is at least 2. -/
theorem max_square_side_ge (w h : ℤ) : 2 ≤ max_square_side w h := by
  unfold max_square_side
  have : (0 : ℤ) ≤ (ceilSqrt (w * w + h * h).toNat : ℤ) := Int.ofNat_nonneg _
  omega

/-- Core rounding bound of the anchor-preserving reposition: rounding the
center from the anchor, then the window corner from the center, then reading
the top-left corner back through the rect center `W` (which may differ from
the ideal rect center by at most `B`) lands within `[-2 - B, 1 + B]` of the
anchor. -/
theorem anchor_delta (ax side W B : ℤ) (rx : ℚ) (hside : 1 ≤ side)
    (hB1 : -B ≤ W - rect_center side) (hB2 : W - rect_center side ≤ B) :
    -2 - B ≤ rhe ((rhe ((ax : ℚ) - rx) : ℚ) - (side : ℚ) / 2) + rhe ((W : ℚ) + rx) - ax ∧
    rhe ((rhe ((ax : ℚ) - rx) : ℚ) - (side : ℚ) / 2) + rhe ((W : ℚ) + rx) - ax ≤ 1 + B := by
  set c : ℤ := rhe ((ax : ℚ) - rx) with hc
  have hcl : (ax : ℚ) - rx - 1/2 ≤ (c : ℚ) := le_rhe _
  have hcu : (c : ℚ) ≤ (ax : ℚ) - rx + 1/2 := rhe_le _
  have key : c - 1 ≤ rhe ((c : ℚ) - (side : ℚ) / 2) + rect_center side ∧
      rhe ((c : ℚ) - (side : ℚ) / 2) + rect_center side ≤ c := by
    rcases Int.even_or_odd side with ⟨k, hk⟩ | ⟨k, hk⟩
    · have hk1 : 1 ≤ k := by omega
      have e1 : (c : ℚ) - (side : ℚ) / 2 = ((c - k : ℤ) : ℚ) := by
        rw [hk]; push_cast; ring
      have e2 : rect_center side = k - 1 := by
        rw [hk, show k + k = 2 * k from by ring, rect_center_even k hk1]
      rw [e1, rhe_intCast, e2]
      omega
    · have e1 : (c : ℚ) - (side : ℚ) / 2 = ((c - k - 1 : ℤ) : ℚ) + 1/2 := by
        rw [hk]; push_cast; ring
      have e2 : rect_center side = k := by rw [hk, rect_center_odd k]
      rw [e1, e2]
      rcases rhe_int_add_half (c - k - 1) with h | h <;> rw [h] <;> omega
  have htl : (W : ℚ) + rx - 1/2 ≤ (rhe ((W : ℚ) + rx) : ℚ) := le_rhe _
  have htu : (rhe ((W : ℚ) + rx) : ℚ) ≤ (W : ℚ) + rx + 1/2 := rhe_le _
  have keyl : ((c : ℚ) - 1) ≤ (rhe ((c : ℚ) - (side : ℚ) / 2) : ℚ) + (rect_center side : ℚ) := by
    exact_mod_cast key.1
  have keyu : (rhe ((c : ℚ) - (side : ℚ) / 2) : ℚ) + (rect_center side : ℚ) ≤ (c : ℚ) := by
    exact_mod_cast key.2
  have hB1q : (-B : ℚ) ≤ (W : ℚ) - (rect_center side : ℚ) := by exact_mod_cast hB1
  have hB2q : (W : ℚ) - (rect_center side : ℚ) ≤ (B : ℚ) := by exact_mod_cast hB2
  constructor
  · have hq : ((-2 - B : ℤ) : ℚ) ≤
        ((rhe ((c : ℚ) - (side : ℚ) / 2) + rhe ((W : ℚ) + rx) - ax : ℤ) : ℚ) := by
      push_cast
      linarith
    exact_mod_cast hq
  · have hq : ((rhe ((c : ℚ) - (side : ℚ) / 2) + rhe ((W : ℚ) + rx) - ax : ℤ) : ℚ) ≤
        ((1 + B : ℤ) : ℚ) := by
      push_cast
      linarith
    exact_mod_cast hq

/-- The EMA stored by a resize move does not depend on the debounce branch. -/
theorem resize_move_ema (P : ResizeParams) (st : ResizeState) (px py : ℤ) :
    (resize_move P st px py).ema = ema_next P st px py := by
  unfold resize_move
  split <;> rfl

/-- The pending width stored by a resize move does not depend on the branch. -/
theorem resize_move_pw (P : ResizeParams) (st : ResizeState) (px py : ℤ) :
    (resize_move P st px py).pw = (pending_after P st px py).1 := by
  unfold resize_move
  split <;> rfl

/-- The pending height stored by a resize move does not depend on the branch. -/
theorem resize_move_ph (P : ResizeParams) (st : ResizeState) (px py : ℤ) :
    (resize_move P st px py).ph = (pending_after P st px py).2 := by
  unfold resize_move
  split <;> rfl

/-- A failed debounce test bounds the distance between the applied geometry
and the candidate geometry by one in every dimension. -/
theorem need_apply_false_bounds (st : ResizeState) (g : ℤ × ℤ × ℤ)
    (h : need_apply st g = false) :
    (-1 ≤ st.gx - g.1 ∧ st.gx - g.1 ≤ 1) ∧ (-1 ≤ st.gy - g.2.1 ∧ st.gy - g.2.1 ≤ 1) ∧
    (-1 ≤ st.gside - g.2.2 ∧ st.gside - g.2.2 ≤ 1) := by
  unfold need_apply at h
  simp only [Bool.or_eq_false_iff, decide_eq_false_iff_not, not_le] at h
  obtain ⟨⟨⟨h1, h2⟩, h3⟩, h4⟩ := h
  have a1 := abs_lt.mp h1
  have a2 := abs_lt.mp h2
  have a3 := abs_lt.mp h3
  exact ⟨⟨by omega, by omega⟩, ⟨by omega, by omega⟩, ⟨by omega, by omega⟩⟩

/-- Resize anchor invariant, corrected.  After every pointer-move of a resize
gesture, the screen position of the image's top-left corner — recomputed via
`_map_image_center_to_widget(-w/2, -h/2)` and `mapToGlobal` from the applied
window geometry and the current pending size — is within 4 pixels per
coordinate of the anchor captured at gesture start, and within 2 pixels per
coordinate when the move passed the 2-pixel debounce and applied its
candidate geometry.  (The 1-pixel bound of the original claim is refuted by
`c1_resize_anchor_counterexample`.) -/
theorem c1_resize_anchor_corrected (P : ResizeParams) (st : ResizeState) (px py : ℤ) :
    (|(image_top_left_global P (resize_move P st px py)).1 - P.ax| ≤ 4 ∧
     |(image_top_left_global P (resize_move P st px py)).2 - P.ay| ≤ 4) ∧
    (need_apply st (cand_after P st px py) = true →
      |(image_top_left_global P (resize_move P st px py)).1 - P.ax| ≤ 2 ∧
      |(image_top_left_global P (resize_move P st px py)).2 - P.ay| ≤ 2) := by
  set p := pending_after P st px py with hp
  set side := max_square_side p.1 p.2 with hside_def
  set r := rot_offset P.ca P.sa p.1 p.2 with hr
  have h1 : 1 ≤ side := le_trans (by norm_num) (max_square_side_ge p.1 p.2)
  cases hna : need_apply st (cand_after P st px py) with
  | true =>
    have hmove : resize_move P st px py =
        ⟨rhe ((rhe ((P.ax : ℚ) - r.1) : ℚ) - (side : ℚ) / 2),
         rhe ((rhe ((P.ay : ℚ) - r.2) : ℚ) - (side : ℚ) / 2), side,
         p.1, p.2, ema_next P st px py⟩ := by
      unfold resize_move
      rw [if_pos hna]
      rfl
    have htl1 : (image_top_left_global P (resize_move P st px py)).1 =
        rhe ((rhe ((P.ax : ℚ) - r.1) : ℚ) - (side : ℚ) / 2) +
          rhe ((rect_center side : ℚ) + r.1) := by
      rw [hmove]; rfl
    have htl2 : (image_top_left_global P (resize_move P st px py)).2 =
        rhe ((rhe ((P.ay : ℚ) - r.2) : ℚ) - (side : ℚ) / 2) +
          rhe ((rect_center side : ℚ) + r.2) := by
      rw [hmove]; rfl
    rcases anchor_delta P.ax side (rect_center side) 0 r.1 h1 (by omega) (by omega)
      with ⟨dl1, du1⟩
    rcases anchor_delta P.ay side (rect_center side) 0 r.2 h1 (by omega) (by omega)
      with ⟨dl2, du2⟩
    have hb1 : |(image_top_left_global P (resize_move P st px py)).1 - P.ax| ≤ 2 := by
      rw [htl1]
      exact abs_le.mpr ⟨by omega, by omega⟩
    have hb2 : |(image_top_left_global P (resize_move P st px py)).2 - P.ay| ≤ 2 := by
      rw [htl2]
      exact abs_le.mpr ⟨by omega, by omega⟩
    exact ⟨⟨le_trans hb1 (by norm_num), le_trans hb2 (by norm_num)⟩, fun _ => ⟨hb1, hb2⟩⟩
  | false =>
    have hmove : resize_move P st px py =
        { st with pw := p.1, ph := p.2, ema := ema_next P st px py } := by
      unfold resize_move
      rw [if_neg (by rw [hna]; simp)]
    have htl1 : (image_top_left_global P (resize_move P st px py)).1 =
        st.gx + rhe ((rect_center st.gside : ℚ) + r.1) := by
      rw [hmove]; rfl
    have htl2 : (image_top_left_global P (resize_move P st px py)).2 =
        st.gy + rhe ((rect_center st.gside : ℚ) + r.2) := by
      rw [hmove]; rfl
    have hb := need_apply_false_bounds st (cand_after P st px py) hna
    have hg1 : (cand_after P st px py).1 =
        rhe ((rhe ((P.ax : ℚ) - r.1) : ℚ) - (side : ℚ) / 2) := rfl
    have hg2 : (cand_after P st px py).2.1 =
        rhe ((rhe ((P.ay : ℚ) - r.2) : ℚ) - (side : ℚ) / 2) := rfl
    have hg3 : (cand_after P st px py).2.2 = side := rfl
    rw [hg1, hg2, hg3] at hb
    have hgs : 1 ≤ st.gside := by
      have := max_square_side_ge p.1 p.2
      omega
    rcases rect_center_diff st.gside side hgs h1 (by omega) (by omega) with ⟨rc1, rc2⟩
    rcases anchor_delta P.ax side (rect_center st.gside) 1 r.1 h1 (by omega) (by omega)
      with ⟨dl1, du1⟩
    rcases anchor_delta P.ay side (rect_center st.gside) 1 r.2 h1 (by omega) (by omega)
      with ⟨dl2, du2⟩
    refine ⟨⟨?_, ?_⟩, fun hcon => absurd hcon (by simp)⟩
    · rw [htl1]
      exact abs_le.mpr ⟨by omega, by omega⟩
    · rw [htl2]
      exact abs_le.mpr ⟨by omega, by omega⟩

/-- Floor square root determined by squeezing between consecutive squares. -/
theorem natSqrt_eq {n m : ℕ} (h1 : m * m ≤ n) (h2 : n < (m + 1) * (m + 1)) :
    Nat.sqrt n = m := by
  have ha : m ≤ Nat.sqrt n := Nat.le_sqrt.mpr h1
  have hb : Nat.sqrt n < m + 1 := Nat.sqrt_lt.mpr h2
  omega

/-- Ceiling square root of a non-square determined by squeezing. -/
theorem ceilSqrt_eval {n m : ℕ} (h1 : m * m < n) (h2 : n < (m + 1) * (m + 1)) :
    ceilSqrt n = m + 1 := by
  unfold ceilSqrt
  rw [natSqrt_eq (le_of_lt h1) h2]
  rw [if_neg (by omega)]

theorem cs_20000 : ceilSqrt 20000 = 142 := ceilSqrt_eval (by norm_num) (by norm_num)

theorem cs_28322 : ceilSqrt 28322 = 169 := ceilSqrt_eval (by norm_num) (by norm_num)

theorem cs_28800 : ceilSqrt 28800 = 170 := ceilSqrt_eval (by norm_num) (by norm_num)

theorem cs_50000 : ceilSqrt 50000 = 224 := ceilSqrt_eval (by norm_num) (by norm_num)

theorem ms_100 : max_square_side 100 100 = 144 := by
  unfold max_square_side
  rw [show ((100 : ℤ) * 100 + 100 * 100).toNat = 20000 from rfl, cs_20000]
  norm_num

theorem ms_119 : max_square_side 119 119 = 171 := by
  unfold max_square_side
  rw [show ((119 : ℤ) * 119 + 119 * 119).toNat = 28322 from rfl, cs_28322]
  norm_num

theorem ms_120 : max_square_side 120 120 = 172 := by
  unfold max_square_side
  rw [show ((120 : ℤ) * 120 + 120 * 120).toNat = 28800 from rfl, cs_28800]
  norm_num

theorem ms_200_100 : max_square_side 200 100 = 226 := by
  unfold max_square_side
  rw [show ((200 : ℤ) * 200 + 100 * 100).toNat = 50000 from rfl, cs_50000]
  norm_num

theorem rc_144 : rect_center 144 = 71 := by
  unfold rect_center qtrunc
  norm_num

theorem rc_171 : rect_center 171 = 85 := by
  unfold rect_center qtrunc
  norm_num

/-- Anchor captured by pressing the resize handle of the concrete gesture. -/
theorem ex_press : press_resize 0 0 144 1 0 100 100 = (exP, exSt0) := by
  unfold press_resize image_top_left rot_offset
  norm_num [rc_144, rhe, Int.fract, exP, exSt0]

theorem ex_ema1 : ema_next exP exSt0 145 144 = 297/250 := by
  unfold ema_next raw_scale exP exSt0
  norm_num [rc_144, max_def]

theorem ex_pend1 : pending_after exP exSt0 145 144 = (119, 119) := by
  unfold pending_after
  rw [ex_ema1]
  unfold tentative_size exP
  norm_num [rhe, Int.fract, max_def, min_def]

theorem ex_cand1 : cand_after exP exSt0 145 144 = (-6, -6, 171) := by
  have hc : center_from_anchor exP.ca exP.sa exP.ax exP.ay 119 119 = (80, 80) := by
    norm_num [center_from_anchor, rot_offset, rhe, Int.fract, exP]
  unfold cand_after
  rw [ex_pend1]
  show (rhe (((center_from_anchor exP.ca exP.sa exP.ax exP.ay 119 119).1 : ℚ) -
          ((max_square_side 119 119 : ℤ) : ℚ) / 2),
        rhe (((center_from_anchor exP.ca exP.sa exP.ax exP.ay 119 119).2 : ℚ) -
          ((max_square_side 119 119 : ℤ) : ℚ) / 2),
        max_square_side 119 119) = (-6, -6, 171)
  rw [hc, ms_119]
  norm_num [rhe, Int.fract]

/-- First move of the concrete gesture: the candidate geometry moves by more
than 2 pixels, so it is applied. -/
theorem ex_move1 : resize_move exP exSt0 145 144 = exSt1 := by
  have hna : need_apply exSt0 ((-6 : ℤ), (-6 : ℤ), (171 : ℤ)) = true := by decide
  unfold resize_move
  rw [ex_cand1, ex_pend1, ex_ema1, if_pos hna]
  rfl

theorem ex_ema2 : ema_next exP exSt1 146 146 = 1501/1250 := by
  unfold ema_next raw_scale exP exSt1
  norm_num [rc_171, max_def]

theorem ex_pend2 : pending_after exP exSt1 146 146 = (120, 120) := by
  unfold pending_after
  rw [ex_ema2]
  unfold tentative_size exP
  norm_num [rhe, Int.fract, max_def, min_def]

theorem ex_cand2 : cand_after exP exSt1 146 146 = (-5, -5, 172) := by
  have hc : center_from_anchor exP.ca exP.sa exP.ax exP.ay 120 120 = (81, 81) := by
    norm_num [center_from_anchor, rot_offset, rhe, Int.fract, exP]
  unfold cand_after
  rw [ex_pend2]
  show (rhe (((center_from_anchor exP.ca exP.sa exP.ax exP.ay 120 120).1 : ℚ) -
          ((max_square_side 120 120 : ℤ) : ℚ) / 2),
        rhe (((center_from_anchor exP.ca exP.sa exP.ax exP.ay 120 120).2 : ℚ) -
          ((max_square_side 120 120 : ℤ) : ℚ) / 2),
        max_square_side 120 120) = (-5, -5, 172)
  rw [hc, ms_120]
  norm_num [rhe, Int.fract]

/-- Second move of the concrete gesture: the candidate geometry differs by
only 1 pixel in every dimension, so the debounce skips it. -/
theorem ex_move2 : resize_move exP exSt1 146 146 = exSt2 := by
  have hna : need_apply exSt1 ((-5 : ℤ), (-5 : ℤ), (172 : ℤ)) = false := by decide
  unfold resize_move
  rw [ex_cand2, ex_pend2, ex_ema2, if_neg (by rw [hna]; simp)]
  rfl

theorem ex_tl2 : image_top_left_global exP exSt2 = (19, 19) := by
  unfold image_top_left_global image_top_left rot_offset
  norm_num [rc_171, rhe, Int.fract, exP, exSt2]

/-- Counterexample to the original resize anchor claim: starting a resize on
a 100 by 100 sticker at the origin (window side 144, angle 0), the press
captures the anchor `(21, 21)`; after the pointer moves `(145, 144)` (applied)
and `(146, 146)` (skipped by the 2-pixel debounce), the recomputed top-left
corner is `(19, 19)`, which is 2 pixels away from the anchor — not within
1 pixel. -/
theorem c1_resize_anchor_counterexample :
    press_resize 0 0 144 1 0 100 100 = (exP, exSt0) ∧
    resize_move exP exSt0 145 144 = exSt1 ∧
    resize_move exP exSt1 146 146 = exSt2 ∧
    image_top_left_global exP exSt2 = (19, 19) ∧
    exP.ax = 21 ∧ exP.ay = 21 ∧
    ¬ (|(image_top_left_global exP exSt2).1 - exP.ax| ≤ 1) := by
  refine ⟨ex_press, ex_move1, ex_move2, ex_tl2, rfl, rfl, ?_⟩
  rw [ex_tl2]
  decide

/-- Witness for the corrected resize anchor theorem: the first move of the
concrete gesture passes the debounce, and the recomputed top-left corner is
within 2 pixels of the anchor on both axes. -/
theorem c1_resize_anchor_witness :
    need_apply exSt0 (cand_after exP exSt0 145 144) = true ∧
    |(image_top_left_global exP (resize_move exP exSt0 145 144)).1 - exP.ax| ≤ 2 ∧
    |(image_top_left_global exP (resize_move exP exSt0 145 144)).2 - exP.ay| ≤ 2 := by
  have h : need_apply exSt0 (cand_after exP exSt0 145 144) = true := by
    rw [ex_cand1]; decide
  exact ⟨h, ((c1_resize_anchor_corrected exP exSt0 145 144).2 h).1,
    ((c1_resize_anchor_corrected exP exSt0 145 144).2 h).2⟩

/-- The clamped raw scale is always at least one tenth. -/
theorem raw_scale_ge (P : ResizeParams) (st : ResizeState) (px py : ℤ) :
    1/10 ≤ raw_scale P st px py := by
  unfold raw_scale
  exact le_max_left _ _

/-- The EMA state never drops below one tenth. -/
theorem ema_next_ge (P : ResizeParams) (st : ResizeState) (px py : ℤ)
    (h : 1/10 ≤ st.ema) : 1/10 ≤ ema_next P st px py := by
  have hr := raw_scale_ge P st px py
  unfold ema_next
  linarith

/-- Zeta-expanded form of `tentative_size`. -/
theorem tentative_size_eq (w0 h0 : ℤ) (s : ℚ) :
    tentative_size w0 h0 s =
      if min (rhe ((w0 : ℚ) * s)) (rhe ((h0 : ℚ) * s)) < 64 then
        (max 1 (rhe ((rhe ((w0 : ℚ) * s) : ℚ) *
            ((64 : ℚ) / ((max 1 (min (rhe ((w0 : ℚ) * s)) (rhe ((h0 : ℚ) * s))) : ℤ) : ℚ)))),
         max 1 (rhe ((rhe ((h0 : ℚ) * s) : ℚ) *
            ((64 : ℚ) / ((max 1 (min (rhe ((w0 : ℚ) * s)) (rhe ((h0 : ℚ) * s))) : ℤ) : ℚ)))))
      else (max 1 (rhe ((w0 : ℚ) * s)), max 1 (rhe ((h0 : ℚ) * s))) := rfl

/-- Both components of the tentative size reach the minimum side 64 whenever
the start size is at least 32 per axis and the smoothed scale at least one
tenth. -/
theorem tentative_size_ge (w0 h0 : ℤ) (hw : 32 ≤ w0) (hh : 32 ≤ h0) (s : ℚ)
    (hs : 1/10 ≤ s) :
    64 ≤ (tentative_size w0 h0 s).1 ∧ 64 ≤ (tentative_size w0 h0 s).2 := by
  have hwq : (32 : ℚ) ≤ (w0 : ℚ) := by exact_mod_cast hw
  have hhq : (32 : ℚ) ≤ (h0 : ℚ) := by exact_mod_cast hh
  have hw3 : 3 ≤ rhe ((w0 : ℚ) * s) := by
    apply int_le_rhe
    push_cast
    nlinarith [mul_nonneg (by linarith : (0:ℚ) ≤ (w0 : ℚ) - 32) (by linarith : (0:ℚ) ≤ s - 1/10)]
  have hh3 : 3 ≤ rhe ((h0 : ℚ) * s) := by
    apply int_le_rhe
    push_cast
    nlinarith [mul_nonneg (by linarith : (0:ℚ) ≤ (h0 : ℚ) - 32) (by linarith : (0:ℚ) ≤ s - 1/10)]
  rw [tentative_size_eq]
  set tw := rhe ((w0 : ℚ) * s) with htw
  set th := rhe ((h0 : ℚ) * s) with hth
  have hsh : 1 ≤ min tw th := by omega
  have hm : max 1 (min tw th) = min tw th := max_eq_right hsh
  by_cases hc : min tw th < 64
  · rw [if_pos hc, hm]
    have hpos : (0 : ℚ) < ((min tw th : ℤ) : ℚ) := by
      exact_mod_cast lt_of_lt_of_le Int.zero_lt_one hsh
    constructor
    · have h64 : (64 : ℤ) ≤ rhe ((tw : ℚ) * ((64 : ℚ) / ((min tw th : ℤ) : ℚ))) := by
        apply int_le_rhe
        have hge : ((min tw th : ℤ) : ℚ) ≤ (tw : ℚ) := by exact_mod_cast min_le_left tw th
        rw [← mul_div_assoc, le_div_iff₀ hpos]
        push_cast at hge ⊢
        nlinarith [hge]
      exact le_trans h64 (le_max_right 1 _)
    · have h64 : (64 : ℤ) ≤ rhe ((th : ℚ) * ((64 : ℚ) / ((min tw th : ℤ) : ℚ))) := by
        apply int_le_rhe
        have hge : ((min tw th : ℤ) : ℚ) ≤ (th : ℚ) := by exact_mod_cast min_le_right tw th
        rw [← mul_div_assoc, le_div_iff₀ hpos]
        push_cast at hge ⊢
        nlinarith [hge]
      exact le_trans h64 (le_max_right 1 _)
  · rw [if_neg hc]
    push_neg at hc
    constructor
    · exact le_trans (le_trans hc (min_le_left _ _)) (le_max_right 1 _)
    · exact le_trans (le_trans hc (min_le_right _ _)) (le_max_right 1 _)

/-- A single resize pointer-move always produces a pending size of at least
64 on both axes, given start dimensions of at least 32. -/
theorem resize_move_min_side (P : ResizeParams) (st : ResizeState) (px py : ℤ)
    (hw : 32 ≤ P.w0) (hh : 32 ≤ P.h0) (hema : 1/10 ≤ st.ema) :
    64 ≤ (resize_move P st px py).pw ∧ 64 ≤ (resize_move P st px py).ph := by
  rw [resize_move_pw, resize_move_ph]
  unfold pending_after
  exact tentative_size_ge _ _ (le_trans hw (le_max_right 1 _))
    (le_trans hh (le_max_right 1 _)) _ (ema_next_ge P st px py hema)

/-- Folding a nonempty move list keeps the final pending size at 64 or more
on both axes. -/
theorem fold_resize_min_side (P : ResizeParams) (hw : 32 ≤ P.w0) (hh : 32 ≤ P.h0) :
    ∀ (moves : List (ℤ × ℤ)) (st : ResizeState), moves ≠ [] → 1/10 ≤ st.ema →
      64 ≤ (moves.foldl (fun s m => resize_move P s m.1 m.2) st).pw ∧
      64 ≤ (moves.foldl (fun s m => resize_move P s m.1 m.2) st).ph := by
  intro moves
  induction moves with
  | nil => intro st h _; exact absurd rfl h
  | cons m ms ih =>
    intro st _ hema
    cases ms with
    | nil =>
      simp only [List.foldl]
      exact resize_move_min_side P st m.1 m.2 hw hh hema
    | cons m2 ms2 =>
      rw [List.foldl_cons]
      refine ih _ (by simp) ?_
      rw [resize_move_ema]
      exact ema_next_ge P st m.1 m.2 hema

/-- Minimum-side invariant, corrected.  A resize gesture that handles at
least one pointer-move commits a size of at least 64 on both axes whenever
the starting dimensions are at least 32 (which is the model invariant
established by `apply_state`); a zero-move gesture recommits the starting
size unchanged, so the claim fails for it when the start is below 64
(`c3_min_side_counterexample`). -/
theorem c3_min_side_corrected (gx gy gside : ℤ) (ca sa : ℚ) (bw bh : ℤ)
    (moves : List (ℤ × ℤ)) (hw : 32 ≤ bw) (hh : 32 ≤ bh) (hmv : moves ≠ []) :
    64 ≤ (resize_gesture gx gy gside ca sa bw bh moves).1 ∧
    64 ≤ (resize_gesture gx gy gside ca sa bw bh moves).2 := by
  unfold resize_gesture press_resize
  exact fold_resize_min_side _ hw hh moves _ hmv (by norm_num)

/-- Counterexample to the original minimum-side claim: pressing the resize
handle of a sticker whose restored base size is the 32 by 32 clamp and
releasing without any pointer-move runs `_finalize_pending_resize`, which
commits the unchanged pending size 32 by 32 — so `min(baseWidth, baseHeight)`
is 32, not at least 64, after a resize gesture commit. -/
theorem c3_min_side_counterexample :
    resize_gesture 0 0 48 1 0 32 32 [] = (32, 32) ∧
    ¬ (64 ≤ min (resize_gesture 0 0 48 1 0 32 32 []).1
        (resize_gesture 0 0 48 1 0 32 32 []).2) := by
  refine ⟨rfl, ?_⟩
  show ¬ (64 ≤ min (32 : ℤ) 32)
  decide

/-- Witness for the corrected minimum-side theorem on the concrete one-move
gesture. -/
theorem c3_min_side_witness :
    ((32 : ℤ) ≤ 100) ∧ (([((145 : ℤ), (144 : ℤ))] : List (ℤ × ℤ)) ≠ []) ∧
    64 ≤ (resize_gesture 0 0 144 1 0 100 100 [(145, 144)]).1 ∧
    64 ≤ (resize_gesture 0 0 144 1 0 100 100 [(145, 144)]).2 := by
  have h := c3_min_side_corrected 0 0 144 1 0 100 100 [(145, 144)]
    (by norm_num) (by norm_num) (by simp)
  exact ⟨by norm_num, by simp, h.1, h.2⟩

/-- Coordinate mapping round-trip: the inverse mapping undoes the forward
mapping exactly over the reals, for every vector, every widget center and
every rotation angle (rotation by the angle and rotation by its negation are
exact mathematical inverses). -/
theorem c2_map_roundtrip (angle cx cy vx vy : ℝ) :
    widget_to_image_real angle cx cy
      (image_to_widget_real angle cx cy vx vy).1
      (image_to_widget_real angle cx cy vx vy).2 = (vx, vy) := by
  have h := Real.sin_sq_add_cos_sq (angle * Real.pi / 180)
  unfold widget_to_image_real image_to_widget_real
  dsimp only
  rw [Real.cos_neg, Real.sin_neg, Prod.ext_iff]
  constructor
  · dsimp only
    linear_combination vx * h
  · dsimp only
    linear_combination vy * h

/-- Resize scale smoothing: on every resize pointer-move the new EMA value is
`0.6 * ema + 0.4 * s_raw` with
`s_raw = max(0.1, (vx*bx + vy*by) / (bx^2 + by^2))` computed from the
inverse-rotated pointer vector and the start-size half-diagonal (the source's
zero-denominator guard never fires because the clamped start size is at least
1); in particular one sample with `s_raw = 5` moves the EMA from 1 to 2.6,
not to 5. -/
theorem c4_resize_scale_smoothing (P : ResizeParams) (st : ResizeState) (px py : ℤ) :
    ((resize_move P st px py).ema =
      3/5 * st.ema + 2/5 * max (1/10)
        (((((px - rect_center st.gside : ℤ) : ℚ) * P.ca +
            ((py - rect_center st.gside : ℤ) : ℚ) * P.sa) * (((max 1 P.w0 : ℤ) : ℚ) / 2) +
          (-(((px - rect_center st.gside : ℤ) : ℚ)) * P.sa +
            ((py - rect_center st.gside : ℤ) : ℚ) * P.ca) * (((max 1 P.h0 : ℤ) : ℚ) / 2)) /
          ((((max 1 P.w0 : ℤ) : ℚ) / 2) * (((max 1 P.w0 : ℤ) : ℚ) / 2) +
           (((max 1 P.h0 : ℤ) : ℚ) / 2) * (((max 1 P.h0 : ℤ) : ℚ) / 2)))) ∧
    (resize_move exP exSt0 321 321).ema = 13/5 := by
  constructor
  · rw [resize_move_ema]
    have hwp : (0 : ℚ) < ((max 1 P.w0 : ℤ) : ℚ) := by
      exact_mod_cast (by omega : (0 : ℤ) < max 1 P.w0)
    have hhp : (0 : ℚ) < ((max 1 P.h0 : ℤ) : ℚ) := by
      exact_mod_cast (by omega : (0 : ℤ) < max 1 P.h0)
    simp only [ema_next, raw_scale]
    rw [if_neg (by nlinarith)]
    norm_num
  · rw [resize_move_ema]
    unfold ema_next raw_scale exP exSt0
    norm_num [rc_144, max_def]


/-- Restoring a window from a center `c` and side `S` (truncate `c - S/2` for
the corner, then read Qt's frame center back) reproduces `c` or `c - 1`. -/
theorem qt_center_restore (c S : ℤ) :
    qt_center (qtrunc ((c : ℚ) - (S : ℚ) / 2)) S = c - 1 ∨
    qt_center (qtrunc ((c : ℚ) - (S : ℚ) / 2)) S = c := by
  rcases Int.even_or_odd S with ⟨k, hk⟩ | ⟨k, hk⟩
  · have hx : qtrunc ((c : ℚ) - (S : ℚ) / 2) = c - k := by
      rw [show (c : ℚ) - (S : ℚ) / 2 = ((c - k : ℤ) : ℚ) from by rw [hk]; push_cast; ring,
        qtrunc_intCast]
    rw [hx]
    unfold qt_center
    rw [show (((c - k : ℤ) : ℚ) + (((c - k : ℤ) : ℚ) + (S : ℚ) - 1)) / 2 =
        ((c - 1 : ℤ) : ℚ) + 1/2 from by rw [hk]; push_cast; ring, qtrunc_int_add_half]
    split_ifs <;> omega
  · have hx : qtrunc ((c : ℚ) - (S : ℚ) / 2) = qtrunc (((c - k - 1 : ℤ) : ℚ) + 1/2) := by
      rw [show (c : ℚ) - (S : ℚ) / 2 = ((c - k - 1 : ℤ) : ℚ) + 1/2 from by
        rw [hk]; push_cast; ring]
    rw [hx, qtrunc_int_add_half]
    by_cases h : 0 ≤ c - k - 1
    · rw [if_pos h]
      unfold qt_center
      rw [show (((c - k - 1 : ℤ) : ℚ) + (((c - k - 1 : ℤ) : ℚ) + (S : ℚ) - 1)) / 2 =
          ((c - 1 : ℤ) : ℚ) from by rw [hk]; push_cast; ring, qtrunc_intCast]
      omega
    · rw [if_neg h]
      unfold qt_center
      rw [show (((c - k - 1 + 1 : ℤ) : ℚ) + (((c - k - 1 + 1 : ℤ) : ℚ) + (S : ℚ) - 1)) / 2 =
          ((c : ℤ) : ℚ) from by rw [hk]; push_cast; ring, qtrunc_intCast]
      omega

/-- Snapshot/restore round-trip: `apply_state` after `to_state` reproduces
the base size (clamping is the identity on model states, whose sides are at
least 32), the angle, the lock and topmost flags exactly, and the window
center within 1 pixel per coordinate. -/
theorem c5_snapshot_roundtrip (s : WidgetState) (hw : 32 ≤ s.base_w) (hh : 32 ≤ s.base_h) :
    (apply_state s (to_state s)).base_w = s.base_w ∧
    (apply_state s (to_state s)).base_h = s.base_h ∧
    (apply_state s (to_state s)).rotation_angle = s.rotation_angle ∧
    (apply_state s (to_state s)).locked = s.locked ∧
    (apply_state s (to_state s)).topmost = s.topmost ∧
    |qt_center (apply_state s (to_state s)).gx (apply_state s (to_state s)).gside -
      qt_center s.gx s.gside| ≤ 1 ∧
    |qt_center (apply_state s (to_state s)).gy (apply_state s (to_state s)).gside -
      qt_center s.gy s.gside| ≤ 1 := by
  have hbw : max (32 : ℤ) s.base_w = s.base_w := max_eq_right hw
  have hbh : max (32 : ℤ) s.base_h = s.base_h := max_eq_right hh
  refine ⟨?_, ?_, ?_, ?_, ?_, ?_, ?_⟩
  · simp only [to_state, apply_state, Option.getD_some, hbw]
  · simp only [to_state, apply_state, Option.getD_some, hbh]
  · simp only [to_state, apply_state, Option.getD_some]
  · simp only [to_state, apply_state, Option.getD_some]
  · simp only [to_state, apply_state, Option.getD_some]
  · simp only [to_state, apply_state, Option.getD_some, hbw, hbh]
    rcases qt_center_restore (qt_center s.gx s.gside) (max_square_side s.base_w s.base_h)
      with h | h <;> rw [h] <;> exact abs_le.mpr ⟨by omega, by omega⟩
  · simp only [to_state, apply_state, Option.getD_some, hbw, hbh]
    rcases qt_center_restore (qt_center s.gy s.gside) (max_square_side s.base_w s.base_h)
      with h | h <;> rw [h] <;> exact abs_le.mpr ⟨by omega, by omega⟩

/-- Witness for the snapshot/restore round-trip at a concrete widget. -/
theorem c5_snapshot_roundtrip_witness :
    (32 : ℤ) ≤ wdg0.base_w ∧ (32 : ℤ) ≤ wdg0.base_h ∧
    (apply_state wdg0 (to_state wdg0)).base_w = wdg0.base_w ∧
    (apply_state wdg0 (to_state wdg0)).rotation_angle = wdg0.rotation_angle ∧
    |qt_center (apply_state wdg0 (to_state wdg0)).gx
        (apply_state wdg0 (to_state wdg0)).gside - qt_center wdg0.gx wdg0.gside| ≤ 1 := by
  have h := c5_snapshot_roundtrip wdg0 (by norm_num [wdg0, mk_widget]) (by norm_num [wdg0, mk_widget])
  exact ⟨by norm_num [wdg0, mk_widget], by norm_num [wdg0, mk_widget], h.1, h.2.2.1, h.2.2.2.2.2.1⟩

/-- Legacy restore center derivation: without both `cx` and `cy`, the
restored center is `(x + S/2, y + S/2)` for the enclosing-square side `S` of
the clamped dimensions; with both present they are preferred; dimensions are
clamped at 32 per axis; and on the record `{x:100, y:100, w:200, h:100}` the
center is `(213, 213)` with `S = 226`. -/
theorem c6_legacy_center_restore (s : WidgetState) (r : StickerRec) :
    ((r.cx = none ∨ r.cy = none) →
      (apply_state s r).saved_center = some
        (r.x.getD s.gx +
          max_square_side (max 32 (r.w.getD s.base_w)) (max 32 (r.h.getD s.base_h)) / 2,
         r.y.getD s.gy +
          max_square_side (max 32 (r.w.getD s.base_w)) (max 32 (r.h.getD s.base_h)) / 2)) ∧
    (∀ cx cy : ℤ, r.cx = some cx → r.cy = some cy →
      (apply_state s r).saved_center = some (cx, cy)) ∧
    (apply_state s r).base_w = max 32 (r.w.getD s.base_w) ∧
    (apply_state s r).base_h = max 32 (r.h.getD s.base_h) ∧
    ((apply_state s legacy_rec_B).saved_center = some (213, 213) ∧
      (apply_state s legacy_rec_B).gside = 226) := by
  obtain ⟨rp, rx, ry, rcx, rcy, rw1, rh1, ran, rtm, rlk⟩ := r
  refine ⟨?_, ?_, rfl, rfl, ?_, ?_⟩
  · intro h
    cases rcx with
    | none => cases rcy <;> rfl
    | some v =>
      cases rcy with
      | none => rfl
      | some w => simp at h
  · intro cx cy hcx hcy
    dsimp only at hcx hcy
    subst hcx
    subst hcy
    rfl
  · show (apply_state s legacy_rec_B).saved_center = some (213, 213)
    unfold apply_state legacy_rec_B
    dsimp only [Option.getD_some]
    rw [show max (32 : ℤ) 200 = 200 from by norm_num, show max (32 : ℤ) 100 = 100 from by
      norm_num, ms_200_100]
    norm_num
  · show (apply_state s legacy_rec_B).gside = 226
    unfold apply_state legacy_rec_B
    dsimp only [Option.getD_some]
    rw [show max (32 : ℤ) 200 = 200 from by norm_num, show max (32 : ℤ) 100 = 100 from by
      norm_num, ms_200_100]

/-- Witness for the legacy-center theorem: both branch hypotheses discharged
at concrete records. -/
theorem c6_legacy_center_restore_witness :
    (apply_state wdg0 legacy_rec_B).saved_center = some
      (legacy_rec_B.x.getD wdg0.gx +
        max_square_side (max 32 (legacy_rec_B.w.getD wdg0.base_w))
          (max 32 (legacy_rec_B.h.getD wdg0.base_h)) / 2,
       legacy_rec_B.y.getD wdg0.gy +
        max_square_side (max 32 (legacy_rec_B.w.getD wdg0.base_w))
          (max 32 (legacy_rec_B.h.getD wdg0.base_h)) / 2) ∧
    (apply_state wdg0 rec_c).saved_center = some (77, 88) :=
  ⟨(c6_legacy_center_restore wdg0 legacy_rec_B).1 (Or.inl rfl),
   (c6_legacy_center_restore wdg0 rec_c).2.1 77 88 rfl rfl⟩

/-- Hit-test exclusivity: the resize-handle hit test returns false whenever
the hover flag is false or the widget is locked, regardless of the triangle
geometry. -/
theorem c7_hit_test_exclusive (locked sh : Bool)
    (tri : Option ((ℤ × ℤ) × (ℤ × ℤ) × (ℤ × ℤ))) (pos : ℤ × ℤ)
    (h : sh = false ∨ locked = true) :
    hit_test_resize locked sh tri pos = false := by
  unfold hit_test_resize
  rcases h with h | h <;> subst h <;> simp

/-- Witness for hit-test exclusivity: the probed point lies inside the raw
handle triangle, yet the test is false because hover is off. -/
theorem c7_hit_test_exclusive_witness :
    pt_in_triangle (5, 5) (0, 0) (40, 0) (0, 40) = true ∧
    hit_test_resize false false (some ((0, 0), (40, 0), (0, 40))) (5, 5) = false := by
  constructor
  · unfold pt_in_triangle bary_u bary_v bary_denom
    norm_num
  · exact c7_hit_test_exclusive false false (some ((0, 0), (40, 0), (0, 40))) (5, 5)
      (Or.inl rfl)

/-- Triangle hit test via barycentric coordinates: a zero denominator reports
no hit (and the division is never executed); otherwise the computed
coordinates sum to 1, satisfy `p = u*a + v*b + w*c`, and the test is a hit
exactly when all three are nonnegative. -/
theorem c8_triangle_barycentric (p a b2 c : ℤ × ℤ) :
    (bary_denom a b2 c = 0 → pt_in_triangle p a b2 c = false) ∧
    (bary_denom a b2 c ≠ 0 →
      bary_u p a b2 c + bary_v p a b2 c + (1 - bary_u p a b2 c - bary_v p a b2 c) = 1 ∧
      bary_u p a b2 c * (a.1 : ℚ) + bary_v p a b2 c * (b2.1 : ℚ) +
        (1 - bary_u p a b2 c - bary_v p a b2 c) * (c.1 : ℚ) = (p.1 : ℚ) ∧
      bary_u p a b2 c * (a.2 : ℚ) + bary_v p a b2 c * (b2.2 : ℚ) +
        (1 - bary_u p a b2 c - bary_v p a b2 c) * (c.2 : ℚ) = (p.2 : ℚ) ∧
      (pt_in_triangle p a b2 c = true ↔
        0 ≤ bary_u p a b2 c ∧ 0 ≤ bary_v p a b2 c ∧
          0 ≤ 1 - bary_u p a b2 c - bary_v p a b2 c)) := by
  constructor
  · intro h
    unfold pt_in_triangle
    rw [if_pos h]
  · intro h
    have hq : ((bary_denom a b2 c : ℤ) : ℚ) ≠ 0 := Int.cast_ne_zero.mpr h
    refine ⟨by ring, ?_, ?_, ?_⟩
    · unfold bary_u bary_v
      field_simp
      unfold bary_denom
      push_cast
      ring
    · unfold bary_u bary_v
      field_simp
      unfold bary_denom
      push_cast
      ring
    · unfold pt_in_triangle
      rw [if_neg h]
      simp [decide_eq_true_eq]

/-- Witness for the barycentric theorem: a degenerate (collinear) triangle
has zero denominator and reports no hit; a proper triangle reports the hit
via the sign test. -/
theorem c8_triangle_barycentric_witness :
    bary_denom (0, 0) (2, 2) (4, 4) = 0 ∧
    pt_in_triangle (1, 1) (0, 0) (2, 2) (4, 4) = false ∧
    bary_denom (0, 0) (40, 0) (0, 40) ≠ 0 ∧
    (pt_in_triangle (5, 5) (0, 0) (40, 0) (0, 40) = true ↔
      0 ≤ bary_u (5, 5) (0, 0) (40, 0) (0, 40) ∧
        0 ≤ bary_v (5, 5) (0, 0) (40, 0) (0, 40) ∧
        0 ≤ 1 - bary_u (5, 5) (0, 0) (40, 0) (0, 40) -
          bary_v (5, 5) (0, 0) (40, 0) (0, 40)) := by
  have h1 : bary_denom ((0 : ℤ), (0 : ℤ)) (2, 2) (4, 4) = 0 := by decide
  have h2 : bary_denom ((0 : ℤ), (0 : ℤ)) (40, 0) (0, 40) ≠ 0 := by decide
  exact ⟨h1, (c8_triangle_barycentric (1, 1) (0, 0) (2, 2) (4, 4)).1 h1, h2,
    ((c8_triangle_barycentric (5, 5) (0, 0) (40, 0) (0, 40)).2 h2).2.2.2⟩

/-- Locked widgets are inert: while locked, a left-button press anywhere, a
right-button press, and pressing the rotate control all leave the
interaction-mode flags false — the widget stays in the idle state. -/
theorem c9_locked_inert (s : PressState) (pos : ℤ × ℤ)
    (hl : s.locked = true) (hd : s.dragging = false) (hr : s.resizing = false)
    (hro : s.rotating = false) :
    ((mouse_press_left s pos).dragging = false ∧
     (mouse_press_left s pos).resizing = false ∧
     (mouse_press_left s pos).rotating = false) ∧
    ((mouse_press_right s).dragging = false ∧
     (mouse_press_right s).resizing = false ∧
     (mouse_press_right s).rotating = false) ∧
    ((begin_rotate_by_button s).dragging = false ∧
     (begin_rotate_by_button s).resizing = false ∧
     (begin_rotate_by_button s).rotating = false) := by
  unfold mouse_press_left mouse_press_right begin_rotate_by_button
  simp [hl, hd, hr, hro]

/-- Witness for the locked-inert theorem: a locked idle widget whose handle
triangle contains the pressed point still stays idle. -/
theorem c9_locked_inert_witness :
    ps0.locked = true ∧
    (mouse_press_left ps0 (5, 5)).dragging = false ∧
    (mouse_press_left ps0 (5, 5)).resizing = false ∧
    (begin_rotate_by_button ps0).rotating = false := by
  have h := c9_locked_inert ps0 (5, 5) rfl rfl rfl rfl
  exact ⟨rfl, h.1.1, h.1.2.1, h.2.2.2.2⟩

/-- `apply_state` never changes the widget's image path: the stored path and
the path handed to the pixmap reload are the constructor-supplied
`image_path`, independent of any `path` field inside the record. -/
theorem c10_apply_keeps_path (s : WidgetState) (r : StickerRec) :
    (apply_state s r).image_path = s.image_path ∧
    (apply_state s r).loaded_path = s.image_path ∧
    (∀ pth : String, (apply_state s { r with path := some pth }).loaded_path = s.image_path) ∧
    (∀ (pth : String) (bw bh : ℤ) (ang : ℚ) (gx gy : ℤ),
      (apply_state (mk_widget pth bw bh ang gx gy) r).loaded_path = pth) := by
  exact ⟨rfl, rfl, fun _ => rfl, fun _ _ _ _ _ _ => rfl⟩


end Sticker
